import Mathlib

/-!
Verification development for the room-lifecycle / team-formation server API
(`src/server/api.ts`).  The JavaScript handlers are shallowly embedded as
pure Lean functions: the metadata record fetched from the store is passed in
as an `Option Metadata` (`none` models a missing room), each handler returns
an `Except ApiError` value describing either the HTTP error thrown or the
data written back to the store, and JavaScript `TypeError` crashes (property
access on `undefined`) are modelled by the dedicated `ApiError.typeError`.

The `players` object of a room has dense integer keys `0..numPlayers-1`
created by `CreateGame`; we model it as a `List PlayerRecord` indexed by
position (which is also the slot key, in ascending `Object.keys` order).
JavaScript string truthiness (`""` and `undefined` are falsy) is modelled by
`truthy` on `Option String`.
-/

namespace BoardgameApi

/-- `data.teamData` payload written by the team-formation code:
a team identifier (stored as a string in JS) and the leader flag. -/
structure TeamData where
  teamID : String
  leader : Bool
deriving DecidableEq, Repr

/-- The caller-defined `data` payload of a player slot.  The handlers read
the truthiness of `data.player` / `data.admin` (role flags), and write
`data.leader` and `data.teamData`. -/
structure PlayerData where
  player : Bool
  admin : Bool
  leader : Option Bool
  teamData : Option TeamData
deriving DecidableEq, Repr

/-- One player slot of `metadata.players`.  `name`/`credentials` are absent
(`none`) on an open slot; `data` is absent unless the joiner supplied it. -/
structure PlayerRecord where
  id : Nat
  name : Option String
  credentials : Option String
  data : Option PlayerData
deriving DecidableEq, Repr

/-- A team record as built by `CreateTeam`: the stringified team index and
the stringified slot keys assigned to it, in assignment order. -/
structure Team where
  teamID : String
  playersID : List String
deriving DecidableEq, Repr

/-- The `setupData` payload of a room, restricted to the fields the team
code reads and writes (`teams`, `adminsID`, `playersID`, `leadersID`);
each is absent until `CreateTeam` stores it. -/
structure SetupData where
  teams : Option (List Team)
  adminsID : Option (List String)
  playersID : Option (List String)
  leadersID : Option (List String)
deriving DecidableEq, Repr

/-- A `setupData` object with none of the bookkeeping fields present yet
(what a caller-supplied opaque payload looks like to the team code). -/
def SetupData.empty : SetupData :=
  { teams := none, adminsID := none, playersID := none, leadersID := none }

/-- The room metadata record stored per `gameID`. -/
structure Metadata where
  gameName : String
  unlisted : Bool
  players : List PlayerRecord
  setupData : Option SetupData
  nextRoomID : Option String
deriving DecidableEq, Repr

/-- Errors surfaced by the handlers.  `validation`, `auth` map to HTTP 403,
`notFound` to 404, `conflict` to 409 (the codes used by `ctx.throw` in the
source); `typeError` models an uncaught JavaScript `TypeError` (property
access on `undefined`), which is not part of the error taxonomy at all. -/
inductive ApiError where
  | validation (msg : String)
  | auth (msg : String)
  | notFound (msg : String)
  | conflict (msg : String)
  | typeError
deriving DecidableEq, Repr

/-- HTTP status attached to each taxonomy error (`ctx.throw` codes);
a `typeError` is an unhandled exception, reported here as 500. -/
def ApiError.status : ApiError → Nat
  | .validation _ => 403
  | .auth _ => 403
  | .notFound _ => 404
  | .conflict _ => 409
  | .typeError => 500

/-- JavaScript truthiness of an optional string: `undefined` and `""` are
falsy, every other string is truthy. -/
def truthy : Option String → Bool
  | none => false
  | some s => s ≠ ""

/-- `metadata.players[i]` (`none` models JS `undefined`). -/
def getPlayer (m : Metadata) (i : Nat) : Option PlayerRecord :=
  m.players.get? i

/-- Overwrite slot `i` of the players map (no-op when `i` is not a key,
matching `List.set`; all handlers only write to existing keys). -/
def setPlayer (m : Metadata) (i : Nat) (p : PlayerRecord) : Metadata :=
  { m with players := m.players.set i p }

/-- `metadata.players[i].data` (`none` when the slot or its data is absent). -/
def getData (m : Metadata) (i : Nat) : Option PlayerData :=
  (getPlayer m i).bind PlayerRecord.data

/-- Apply `f` to the `data` of slot `i` when the slot and its data exist
(the callers establish existence before using this). -/
def modifyData (m : Metadata) (i : Nat) (f : PlayerData → PlayerData) : Metadata :=
  match getPlayer m i with
  | some p =>
    match p.data with
    | some d => setPlayer m i { p with data := some (f d) }
    | none => m
  | none => m

/-- `CreateGame` (api.ts lines 30-56): `numPlayers` defaults to 2 when
falsy or not a number (`!numPlayers || typeof numPlayers !== 'number'`);
we model the JS number as `Option Int` where `none` stands for
`NaN`/absent/non-number and `some 0` is falsy.  Slots `0..numPlayers-1`
are initialised with only their `id`. -/
def CreateGame (gameName : String) (numPlayers : Option Int)
    (setupData : Option SetupData) (unlisted : Bool) : Metadata :=
  let n : Int :=
    match numPlayers with
    | none => 2
    | some v => if v = 0 then 2 else v
  { gameName := gameName
    unlisted := unlisted
    players := (List.range n.toNat).map
      (fun i => { id := i, name := none, credentials := none, data := none })
    setupData := setupData
    nextRoomID := none }

/-- The `join` handler (api.ts lines 169-205).  Returns the persisted
metadata and the `playerCredentials` body on success.  `generated` is the
value produced by `lobbyConfig.generateCredentials`. -/
def joinRoom (metadata : Option Metadata) (playerID : Option Nat)
    (playerName : Option String) (data : Option PlayerData)
    (generated : String) : Except ApiError (Metadata × String) :=
  match playerID with
  | none => .error (.validation "playerID is required")
  | some pid =>
    if !truthy playerName then .error (.validation "playerName is required")
    else
      match metadata with
      | none => .error (.notFound "Game not found")
      | some m =>
        match getPlayer m pid with
        | none => .error (.notFound "Player not found")
        | some p =>
          if truthy p.name then .error (.conflict "Player not available")
          else
            let p1 := match data with
              | some d => { p with data := some d }
              | none => p
            let p2 := { p1 with name := playerName, credentials := some generated }
            .ok (setPlayer m pid p2, generated)

/-- Store effect of the `leave` handler: either update the room record or
delete it (`db.wipe`). -/
inductive LeaveEffect where
  | set (m : Metadata)
  | wipe
deriving DecidableEq, Repr

/-- The `leave` handler (api.ts lines 207-237): clears `name` and
`credentials` of the slot after the credential check; if no slot keeps a
truthy `name` afterwards the room is wiped instead of updated. -/
def leaveRoom (metadata : Option Metadata) (playerID : Option Nat)
    (credentials : Option String) : Except ApiError LeaveEffect :=
  match playerID with
  | none => .error (.validation "playerID is required")
  | some pid =>
    match metadata with
    | none => .error (.notFound "Game not found")
    | some m =>
      match getPlayer m pid with
      | none => .error (.notFound "Player not found")
      | some p =>
        if credentials ≠ p.credentials then .error (.auth "Invalid credentials")
        else
          let m1 := setPlayer m pid { p with name := none, credentials := none }
          if m1.players.any (fun q => truthy q.name) then .ok (.set m1)
          else .ok .wipe

/-- `updatePlayerMetadata` (api.ts lines 294-330), serving `/update` and the
deprecated `/rename`: requires `newName` (truthy) or `data`, checks the
slot's credentials, then overwrites `name` and/or `data`. -/
def updatePlayerMetadata (metadata : Option Metadata) (playerID : Option Nat)
    (credentials : Option String) (newName : Option String)
    (data : Option PlayerData) : Except ApiError Metadata :=
  match playerID with
  | none => .error (.validation "playerID is required")
  | some pid =>
    if data.isNone && !truthy newName then
      .error (.validation "newName or data is required")
    else
      match metadata with
      | none => .error (.notFound "Game not found")
      | some m =>
        match getPlayer m pid with
        | none => .error (.notFound "Player not found")
        | some p =>
          if credentials ≠ p.credentials then .error (.auth "Invalid credentials")
          else
            let p1 := if truthy newName then { p with name := newName } else p
            let p2 := match data with
              | some d => { p1 with data := some d }
              | none => p1
            .ok (setPlayer m pid p2)

/-- Result of the `playAgain` handler: the `nextRoomID` body, the successor
room created via `CreateGame` (with its fresh id) when one was created, and
the updated source-room record when one was persisted. -/
structure PlayAgainResult where
  nextRoomID : String
  created : Option (String × Metadata)
  updated : Option Metadata
deriving DecidableEq, Repr

/-- The `playAgain` handler (api.ts lines 239-292): after the playerID /
room / slot / credential checks, a truthy stored `nextRoomID` is returned
unchanged with no further effect; otherwise a successor room is created via
`CreateGame` (body `setupData` falling back to the stored one, body
`numPlayers` falling back to `Object.keys(players).length` when falsy) and
the fresh id is stored as `nextRoomID`.  `freshID` is the id minted by
`lobbyConfig.uuid` for the successor room. -/
def playAgain (metadata : Option Metadata) (playerID : Option Nat)
    (credentials : Option String) (bodyNumPlayers : Option Int)
    (bodySetupData : Option SetupData) (unlisted : Bool)
    (gameName : String) (freshID : String) : Except ApiError PlayAgainResult :=
  match playerID with
  | none => .error (.validation "playerID is required")
  | some pid =>
    match metadata with
    | none => .error (.notFound "Game not found")
    | some m =>
      match getPlayer m pid with
      | none => .error (.notFound "Player not found")
      | some p =>
        if credentials ≠ p.credentials then .error (.auth "Invalid credentials")
        else if truthy m.nextRoomID then
          .ok { nextRoomID := m.nextRoomID.getD ""
                created := none
                updated := none }
        else
          let sd := match bodySetupData with
            | some s => some s
            | none => m.setupData
          let np : Int := match bodyNumPlayers with
            | none => (m.players.length : Int)
            | some v => if v = 0 then (m.players.length : Int) else v
          let nextRoom := CreateGame gameName (some np) sd unlisted
          .ok { nextRoomID := freshID
                created := some (freshID, nextRoom)
                updated := some { m with nextRoomID := some freshID } }

/-- The `rejoin` handler (api.ts lines 522-551): finds the first slot whose
stored `name` strictly equals the supplied `playerName`, 409s when none
matches, checks that slot's credentials, and persists the metadata as-is. -/
def RejoinGame (metadata : Option Metadata) (playerName : Option String)
    (credentials : Option String) : Except ApiError Metadata :=
  if !truthy playerName then .error (.validation "playerName is required")
  else
    match metadata with
    | none => .error (.notFound "Game not found")
    | some m =>
      match m.players.findIdx? (fun p => p.name == playerName) with
      | none => .error (.conflict "Player not available")
      | some pid =>
        match getPlayer m pid with
        | none => .error .typeError
        | some p =>
          if credentials ≠ p.credentials then .error (.auth "Invalid credentials")
          else .ok m

/-- The eligibility scan at the top of `CreateTeam` (api.ts lines 361-368):
walks `Object.keys(metadata.players)` collecting the keys whose
`data.player` is truthy and those whose `data.admin` is truthy.  Reading
`metadata.players[id].data.player` on a slot without `data` throws a
`TypeError`. -/
def scanRolesFrom (m : Metadata) : List Nat → Except ApiError (List Nat × List Nat)
  | [] => .ok ([], [])
  | i :: rest =>
    match getData m i with
    | none => .error .typeError
    | some d => do
      let (ps, ads) ← scanRolesFrom m rest
      .ok (if d.player then i :: ps else ps, if d.admin then i :: ads else ads)

/-- `playerArray` and `adminArray` of `CreateTeam` over all slot keys. -/
def scanRoles (m : Metadata) : Except ApiError (List Nat × List Nat) :=
  scanRolesFrom m (List.range m.players.length)

/-- One step of the team-fill cursor (api.ts lines 392-408 and 420-434):
if the slot under the cursor is admin-flagged, set its `data.leader` to
`false` and advance once; then (without re-checking) write a fresh
`teamData` for team `tid` and `leader := false` onto the slot now under the
cursor.  Returns the mutated metadata, the key that was assigned, and the
advanced cursor.  Dereferencing `data` of a missing slot or a slot without
`data` throws a `TypeError`. -/
def assignPlayer (m : Metadata) (cursor : Nat) (tid : String) :
    Except ApiError (Metadata × Nat × Nat) :=
  match getData m cursor with
  | none => .error .typeError
  | some d =>
    if d.admin then
      let m1 := modifyData m cursor (fun dd => { dd with leader := some false })
      match getData m1 (cursor + 1) with
      | none => .error .typeError
      | some _ =>
        let m2 := modifyData m1 (cursor + 1) (fun dd =>
          { dd with teamData := some { teamID := tid, leader := false },
                    leader := some false })
        .ok (m2, cursor + 1, cursor + 2)
    else
      let m2 := modifyData m cursor (fun dd =>
        { dd with teamData := some { teamID := tid, leader := false },
                  leader := some false })
      .ok (m2, cursor, cursor + 1)

/-- The inner fill loop of `CreateTeam` (`for (let id = 0; id <
playersInTeam; id++)`): assign `count` players to team `tid`, returning the
assigned keys in order (the `tmp_playerArray`). -/
def fillCount (m : Metadata) (cursor : Nat) (tid : String) :
    Nat → Except ApiError (Metadata × Nat × List Nat)
  | 0 => .ok (m, cursor, [])
  | count + 1 => do
    let (m1, pid, c1) ← assignPlayer m cursor tid
    let (m2, c2, rest) ← fillCount m1 c1 tid count
    .ok (m2, c2, pid :: rest)

/-- Set both `data.teamData.leader` and `data.leader` of slot `i` to `b`
(api.ts lines 410-411 and 492-495).  A missing slot, missing `data`, or
missing `teamData` throws a `TypeError`. -/
def setLeaderFlag (m : Metadata) (i : Nat) (b : Bool) : Except ApiError Metadata :=
  match getData m i with
  | none => .error .typeError
  | some d =>
    match d.teamData with
    | none => .error .typeError
    | some td =>
      .ok (modifyData m i (fun dd =>
        { dd with teamData := some { td with leader := b }, leader := some b }))

/-- The outer loop of `CreateTeam` (api.ts lines 384-415): build `count`
teams starting at index `teamID`, each base-filled with `base` players; the
first key of each team's `tmp_playerArray` is promoted to leader
(`tmp_playerArray[0]` being `undefined` when `base = 0` throws a
`TypeError`).  Returns the mutated metadata, final cursor, the `teams`
list, and the `playerLeaderArray`. -/
def buildTeams (m : Metadata) (cursor : Nat) (base : Nat) (teamID : Nat) :
    Nat → Except ApiError (Metadata × Nat × List Team × List String)
  | 0 => .ok (m, cursor, [], [])
  | count + 1 => do
    let tid := toString teamID
    let (m1, c1, assigned) ← fillCount m cursor tid base
    match assigned.head? with
    | none => .error .typeError
    | some idLeader => do
      let m2 ← setLeaderFlag m1 idLeader true
      let (m3, c3, restTeams, restLeaders) ← buildTeams m2 c1 base (teamID + 1) count
      .ok (m3, c3,
        { teamID := tid, playersID := assigned.map toString } :: restTeams,
        toString idLeader :: restLeaders)

/-- The remainder loop of `CreateTeam` (api.ts lines 417-437): distribute
`count` leftover players one each to teams `0, 1, ...` (the team list entry
with the matching `teamID` receives the assigned key; `find` never fails
because the remainder count is below the team count). -/
def addRemainder (m : Metadata) (cursor : Nat) (teams : List Team) (teamID : Nat) :
    Nat → Except ApiError (Metadata × List Team)
  | 0 => .ok (m, teams)
  | count + 1 => do
    let tid := toString teamID
    let (m1, pid, c1) ← assignPlayer m cursor tid
    match teams.find? (fun tm => tm.teamID == tid) with
    | none => .error .typeError
    | some _ =>
      let teams1 := teams.map (fun tm =>
        if tm.teamID == tid then { tm with playersID := tm.playersID ++ [toString pid] }
        else tm)
      addRemainder m1 c1 teams1 (teamID + 1) count

/-- The `CreateTeam` handler (api.ts lines 344-447, route `teams/create`):
validates `numOfTeams` and the room, scans roles, base-fills
`numOfTeams` teams of `floor(n / numOfTeams)` eligible players each with
the raw cursor starting at the first `player`-flagged key, distributes the
remainder, and (only when the room has a `setupData` object) stores the
aggregate `teams` / `adminsID` / `playersID` / `leadersID` lists on it.
Returns the persisted metadata and the `teams` response body.
With `numOfTeams = 0` the JS arithmetic produces `NaN` bounds, so both
loops run zero times; the `if t = 0 then 0` guard reproduces that. -/
def CreateTeam (metadata : Option Metadata) (numOfTeams : Option Nat) :
    Except ApiError (Metadata × List Team) :=
  match numOfTeams with
  | none => .error (.validation "Define number of team")
  | some t =>
    match metadata with
    | none => .error (.notFound "Game not found")
    | some m => do
      let (playerArray, adminArray) ← scanRoles m
      let numPlayer := playerArray.length
      let playersInTeam := numPlayer / t
      let numOfReminder := if t = 0 then 0 else numPlayer % t
      let startCursor := playerArray.headD 0
      let (m1, c1, teams, leaders) ← buildTeams m startCursor playersInTeam 0 t
      let (m2, teams2) ←
        if numOfReminder ≠ 0 then addRemainder m1 c1 teams 0 numOfReminder
        else .ok (m1, teams)
      let m3 := match m2.setupData with
        | some sd =>
          { m2 with setupData := some { sd with
              teams := some teams2
              adminsID := some (adminArray.map toString)
              playersID := some (playerArray.map toString)
              leadersID := some leaders } }
        | none => m2
      .ok (m3, teams2)

/-- Result of the `UpdateLeader` handler: either a rotation that persisted
the given metadata and elected `newLeader`, or the branch that only logs
"only one player in team" and persists nothing. -/
inductive RotateResult where
  | rotated (m : Metadata) (newLeader : Nat)
  | onlyOne
deriving DecidableEq, Repr

/-- The team-member scan of `UpdateLeader` (api.ts lines 479-489): walk the
slot keys; a slot without `data` throws (`hasOwnProperty` on `undefined`);
slots whose `teamData.teamID` equals `tid` are split into the (last seen)
leader and the ordered list of the others. -/
def scanTeamFrom (m : Metadata) (tid : String) (acc : Option Nat × List Nat) :
    List Nat → Except ApiError (Option Nat × List Nat)
  | [] => .ok acc
  | i :: rest =>
    match getData m i with
    | none => .error .typeError
    | some d =>
      match d.teamData with
      | none => scanTeamFrom m tid acc rest
      | some td =>
        if td.teamID = tid then
          if td.leader then scanTeamFrom m tid (some i, acc.2) rest
          else scanTeamFrom m tid (acc.1, acc.2 ++ [i]) rest
        else scanTeamFrom m tid acc rest

/-- `playerID_oldLeader` / `playerID_others` over all slot keys.  The
accumulator starts at `(none, [])`: `none` models the initial `''` key. -/
def scanTeam (m : Metadata) (tid : String) : Except ApiError (Option Nat × List Nat) :=
  scanTeamFrom m tid (none, []) (List.range m.players.length)

/-- The team-existence gate of `UpdateLeader` (api.ts lines 468-473): only
when the room has `setupData` is the recorded team list consulted; a
missing `teams` field crashes (`.find` on `undefined`), and a `teamID`
matching no recorded team is a 404. -/
def teamGate (m : Metadata) (tid : String) : Except ApiError Unit :=
  match m.setupData with
  | some sd =>
    match sd.teams with
    | none => .error .typeError
    | some ts =>
      if ts.any (fun tm => tm.teamID == tid) then .ok ()
      else .error (.notFound "Team not found")
  | none => .ok ()

/-- The `UpdateLeader` handler (api.ts lines 454-516, route
`teams/update/leader/:team`): 404s when the room has `setupData` but no
recorded team matches `tid`; scans the members of team `tid`; when there
are non-leader members, one of them (index `pick % length`, modelling
`Math.floor(Math.random() * length)`) is promoted, the old leader (`''`,
i.e. a crash, when the team has no flagged leader) is demoted, and the
first occurrence of the old leader in `setupData.leadersID` is replaced in
place; otherwise nothing is persisted. -/
def UpdateLeader (metadata : Option Metadata) (teamID : Option String)
    (pick : Nat) : Except ApiError RotateResult :=
  match teamID with
  | none => .error (.validation "Select the team to update")
  | some tid =>
    match metadata with
    | none => .error (.notFound "Game not found")
    | some m => do
      let _ ← teamGate m tid
      let (oldL, others) ← scanTeam m tid
      match others with
      | [] => .ok .onlyOne
      | _ :: _ =>
        let nl := others.getD (pick % others.length) 0
        match oldL with
        | none => .error .typeError
        | some ol => do
          let m1 ← setLeaderFlag m nl true
          let m2 ← setLeaderFlag m1 ol false
          match m2.setupData with
          | none => .error .typeError
          | some sd2 =>
            match sd2.leadersID with
            | none => .error .typeError
            | some ls =>
              let ls2 :=
                if (toString ol) ∈ ls then ls.set (ls.indexOf (toString ol)) (toString nl)
                else ls
              .ok (.rotated
                { m2 with setupData := some { sd2 with leadersID := some ls2 } } nl)

/-- One request against one room, bundling the body fields each handler
reads (the injected credential / uuid values appear as explicit inputs). -/
inductive Op where
  | create (numPlayers : Option Int) (setupData : Option SetupData)
      (unlisted : Bool) (gameName : String)
  | join (playerID : Option Nat) (playerName : Option String)
      (data : Option PlayerData) (generated : String)
  | leave (playerID : Option Nat) (credentials : Option String)
  | update (playerID : Option Nat) (credentials : Option String)
      (newName : Option String) (data : Option PlayerData)
  | rejoin (playerName : Option String) (credentials : Option String)
  | playAgainOp (playerID : Option Nat) (credentials : Option String)
      (numPlayers : Option Int) (setupData : Option SetupData)
      (unlisted : Bool) (gameName : String) (freshID : String)
  | formTeams (numOfTeams : Option Nat)
  | rotateLeader (teamID : Option String) (pick : Nat)

/-- The room records written to the store by one request: the updated (or
freshly created) metadata records; an error writes nothing, `leave`
falling through to `db.wipe` writes nothing, and the `UpdateLeader`
"only one player" branch writes nothing. -/
def persisted (op : Op) (metadata : Option Metadata) : List Metadata :=
  match op with
  | .create np sd ul gn => [CreateGame gn np sd ul]
  | .join pid pn d g =>
    match joinRoom metadata pid pn d g with
    | .ok (m, _) => [m]
    | .error _ => []
  | .leave pid c =>
    match leaveRoom metadata pid c with
    | .ok (.set m) => [m]
    | _ => []
  | .update pid c nn d =>
    match updatePlayerMetadata metadata pid c nn d with
    | .ok m => [m]
    | .error _ => []
  | .rejoin pn c =>
    match RejoinGame metadata pn c with
    | .ok m => [m]
    | .error _ => []
  | .playAgainOp pid c np sd ul gn f =>
    match playAgain metadata pid c np sd ul gn f with
    | .ok r => (r.created.map Prod.snd).toList ++ r.updated.toList
    | .error _ => []
  | .formTeams t =>
    match CreateTeam metadata t with
    | .ok (m, _) => [m]
    | .error _ => []
  | .rotateLeader tid p =>
    match UpdateLeader metadata tid p with
    | .ok (.rotated m _) => [m]
    | _ => []

/-- The seated invariant of the spec: a slot has a `name` exactly when it
has `credentials`. -/
def seatedInv (m : Metadata) : Prop :=
  ∀ p ∈ m.players, p.name.isSome ↔ p.credentials.isSome

instance (m : Metadata) : Decidable (seatedInv m) := by
  unfold seatedInv; infer_instance

/-- The eligible players of a room in the claims' sense: seated-slot keys
whose `data.player` flag is set and `data.admin` flag is not. -/
def eligiblePlayers (m : Metadata) : List Nat :=
  (List.range m.players.length).filter (fun i =>
    match getData m i with
    | some d => d.player && !d.admin
    | none => false)

/-- A player-flagged data payload (a regular participant). -/
def pdPlayer : PlayerData :=
  { player := true, admin := false, leader := none, teamData := none }

/-- An admin-flagged data payload. -/
def pdAdmin : PlayerData :=
  { player := false, admin := true, leader := none, teamData := none }

/-- A seated slot fixture with the given key, name and data payload. -/
def seat (i : Nat) (nm : String) (d : PlayerData) : PlayerRecord :=
  { id := i, name := some nm, credentials := some ("cred" ++ toString i),
    data := some d }

/-- Fixture: a room of four seated players whose role flags are
player, admin, admin, player — the eligible players are slots 0 and 3. -/
def roomPAAP : Metadata :=
  { gameName := "g", unlisted := false,
    players := [seat 0 "A" pdPlayer, seat 1 "B" pdAdmin,
                seat 2 "C" pdAdmin, seat 3 "D" pdPlayer],
    setupData := some SetupData.empty, nextRoomID := none }

/-- Fixture: a room of four seated players, all `player`-flagged. -/
def room4 : Metadata :=
  { gameName := "g", unlisted := false,
    players := [seat 0 "A" pdPlayer, seat 1 "B" pdPlayer,
                seat 2 "C" pdPlayer, seat 3 "D" pdPlayer],
    setupData := some SetupData.empty, nextRoomID := none }

/-- Fixture: a two-player room whose caller supplied no `setupData`. -/
def roomNoSD : Metadata :=
  { gameName := "g", unlisted := false,
    players := [seat 0 "A" pdPlayer, seat 1 "B" pdPlayer],
    setupData := none, nextRoomID := none }

/-- Fixture: a room with one seated player and one open slot (no `data`). -/
def roomOpen : Metadata :=
  { gameName := "g", unlisted := false,
    players := [seat 0 "A" pdPlayer,
                { id := 1, name := none, credentials := none, data := none }],
    setupData := some SetupData.empty, nextRoomID := none }

/-- The name/credentials view of a room: exactly the per-slot fields the
seated invariant speaks about. -/
def views (m : Metadata) : List (Option String × Option String) :=
  m.players.map (fun p => (p.name, p.credentials))

/-- The safety proviso of the amended claim C3: an `update` request may only
rename a slot that currently holds credentials (i.e. a seated slot); every
other operation is unrestricted. -/
def invSafe (op : Op) (metadata : Option Metadata) : Bool :=
  match op, metadata with
  | .update (some pid) _ nn _, some m =>
    !truthy nn || ((getPlayer m pid).bind PlayerRecord.credentials).isSome
  | _, _ => true

/-- Membership of slot `i` in team `tid` as recorded on the player's
`data.teamData`. -/
def memberOf (m : Metadata) (tid : String) (i : Nat) : Bool :=
  match getData m i with
  | some d =>
    match d.teamData with
    | some td => td.teamID = tid
    | none => false
  | none => false

/-- Slot `i` is a member of team `tid` flagged as its leader. -/
def isLeaderOf (m : Metadata) (tid : String) (i : Nat) : Bool :=
  match getData m i with
  | some d =>
    match d.teamData with
    | some td => td.teamID = tid && td.leader
    | none => false
  | none => false

/-- All slot keys recorded as members of team `tid`, in key order. -/
def teamMembers (m : Metadata) (tid : String) : List Nat :=
  (List.range m.players.length).filter (memberOf m tid)

/-- The members of team `tid` flagged leader, in key order. -/
def teamLeaders (m : Metadata) (tid : String) : List Nat :=
  (List.range m.players.length).filter (isLeaderOf m tid)

/-- The members of team `tid` not flagged leader, in key order. -/
def teamNonLeaders (m : Metadata) (tid : String) : List Nat :=
  (List.range m.players.length).filter
    (fun i => memberOf m tid i && !isLeaderOf m tid i)

/-- Fixture: the recorded team list after `CreateTeam` on `room4` with two
teams. -/
def tsT : List Team :=
  [{ teamID := "0", playersID := ["0", "1"] },
   { teamID := "1", playersID := ["2", "3"] }]

/-- Fixture: the `setupData` stored by that `CreateTeam` call. -/
def sdT : SetupData :=
  { teams := some tsT, adminsID := some [],
    playersID := some ["0", "1", "2", "3"], leadersID := some ["0", "2"] }

/-- Fixture: `room4` after `CreateTeam` with two teams (slots 0 and 2 are
the team leaders). -/
def room4Teamed : Metadata :=
  match CreateTeam (some room4) (some 2) with
  | .ok (m, _) => m
  | .error _ => room4

/-! ### Lookup and mutation lemmas -/

theorem getPlayer_lt_length {m : Metadata} {i : Nat} {p : PlayerRecord}
    (h : getPlayer m i = some p) : i < m.players.length := by
  obtain ⟨hlt, -⟩ := List.get?_eq_some.mp h
  exact hlt

theorem getPlayer_setPlayer_self {m : Metadata} {i : Nat} {p : PlayerRecord}
    (h : getPlayer m i = some p) (q : PlayerRecord) :
    getPlayer (setPlayer m i q) i = some q := by
  have hlt : i < m.players.length := getPlayer_lt_length h
  unfold getPlayer setPlayer
  exact List.get?_set_eq_of_lt q hlt

theorem getPlayer_setPlayer_ne (m : Metadata) {i j : Nat} (q : PlayerRecord)
    (h : i ≠ j) : getPlayer (setPlayer m i q) j = getPlayer m j := by
  unfold getPlayer setPlayer
  exact List.get?_set_ne q _ h

theorem setPlayer_setupData (m : Metadata) (i : Nat) (q : PlayerRecord) :
    (setPlayer m i q).setupData = m.setupData := rfl

theorem setPlayer_length (m : Metadata) (i : Nat) (q : PlayerRecord) :
    (setPlayer m i q).players.length = m.players.length :=
  List.length_set _ _ _

theorem map_set_eq_of {α β : Type _} (f : α → β) :
    ∀ (l : List α) (i : Nat) (p q : α), l.get? i = some p → f q = f p →
      (l.set i q).map f = l.map f
  | [], i, p, q, h, _ => by simp at h
  | a :: l, 0, p, q, h, hf => by
    injection h with h
    subst h
    simp [List.set, hf]
  | a :: l, i + 1, p, q, h, hf => by
    simp only [List.get?] at h
    simp only [List.set, List.map]
    rw [map_set_eq_of f l i p q h hf]

theorem views_setPlayer {m : Metadata} {i : Nat} {p : PlayerRecord}
    (h : getPlayer m i = some p) (q : PlayerRecord)
    (hn : q.name = p.name) (hc : q.credentials = p.credentials) :
    views (setPlayer m i q) = views m := by
  unfold views setPlayer
  exact map_set_eq_of _ m.players i p q h (by simp [hn, hc])

/-- `modifyData` leaves the name/credentials view, the `setupData` and the
slot count unchanged. -/
theorem modifyData_shape (m : Metadata) (i : Nat) (f : PlayerData → PlayerData) :
    views (modifyData m i f) = views m ∧
    (modifyData m i f).setupData = m.setupData ∧
    (modifyData m i f).players.length = m.players.length := by
  unfold modifyData
  cases hp : getPlayer m i with
  | none => exact ⟨rfl, rfl, rfl⟩
  | some p =>
    dsimp only
    cases hd : p.data with
    | none => exact ⟨rfl, rfl, rfl⟩
    | some d =>
      exact ⟨views_setPlayer hp _ rfl rfl, rfl, setPlayer_length _ _ _⟩

theorem getData_modifyData_ne (m : Metadata) {i j : Nat}
    (f : PlayerData → PlayerData) (h : i ≠ j) :
    getData (modifyData m i f) j = getData m j := by
  unfold modifyData
  cases hp : getPlayer m i with
  | none => rfl
  | some p =>
    dsimp only
    cases hd : p.data with
    | none => rfl
    | some d =>
      unfold getData
      rw [getPlayer_setPlayer_ne m _ h]

theorem getData_modifyData_self {m : Metadata} {i : Nat} {d : PlayerData}
    (f : PlayerData → PlayerData) (h : getData m i = some d) :
    getData (modifyData m i f) i = some (f d) := by
  unfold getData at h
  cases hp : getPlayer m i with
  | none => rw [hp] at h; simp at h
  | some p =>
    rw [hp] at h
    simp only [Option.some_bind] at h
    unfold modifyData
    rw [hp]
    dsimp only
    rw [h]
    unfold getData
    rw [getPlayer_setPlayer_self hp]
    rfl

theorem getData_isSome_modifyData (m : Metadata) (i j : Nat)
    (f : PlayerData → PlayerData) (h : (getData m j).isSome) :
    (getData (modifyData m i f) j).isSome := by
  rcases eq_or_ne i j with rfl | hne
  · obtain ⟨d, hd⟩ := Option.isSome_iff_exists.mp h
    rw [getData_modifyData_self f hd]
    rfl
  · rw [getData_modifyData_ne m f hne]
    exact h

theorem except_bind_ok {ε α β : Type _} {x : Except ε α} {f : α → Except ε β} {b : β}
    (h : (x >>= f) = .ok b) : ∃ a, x = .ok a ∧ f a = .ok b := by
  cases x with
  | error e => simp [Bind.bind, Except.bind] at h
  | ok a => exact ⟨a, rfl, by simpa [Bind.bind, Except.bind] using h⟩

/-- The triple of room components untouched by the team-fill mutations. -/
def shapeOf (m : Metadata) :
    List (Option String × Option String) × Option SetupData × Nat :=
  (views m, m.setupData, m.players.length)

theorem shapeOf_modifyData (m : Metadata) (i : Nat) (f : PlayerData → PlayerData) :
    shapeOf (modifyData m i f) = shapeOf m := by
  obtain ⟨h1, h2, h3⟩ := modifyData_shape m i f
  unfold shapeOf
  rw [h1, h2, h3]

theorem setLeaderFlag_shape {m m1 : Metadata} {i : Nat} {b : Bool}
    (h : setLeaderFlag m i b = .ok m1) : shapeOf m1 = shapeOf m := by
  unfold setLeaderFlag at h
  cases hd : getData m i with
  | none => rw [hd] at h; cases h
  | some d =>
    rw [hd] at h
    dsimp only at h
    cases htd : d.teamData with
    | none => rw [htd] at h; cases h
    | some td =>
      rw [htd] at h
      cases h
      exact shapeOf_modifyData _ _ _

theorem assignPlayer_shape {m m1 : Metadata} {c : Nat} {tid : String}
    {pid c1 : Nat} (h : assignPlayer m c tid = .ok (m1, pid, c1)) :
    shapeOf m1 = shapeOf m := by
  unfold assignPlayer at h
  cases hd : getData m c with
  | none => rw [hd] at h; cases h
  | some d =>
    rw [hd] at h
    dsimp only at h
    by_cases ha : d.admin
    · rw [if_pos ha] at h
      cases hd2 : getData (modifyData m c fun dd => { dd with leader := some false })
          (c + 1) with
      | none => rw [hd2] at h; cases h
      | some d2 =>
        rw [hd2] at h
        cases h
        rw [shapeOf_modifyData, shapeOf_modifyData]
    · rw [if_neg ha] at h
      cases h
      exact shapeOf_modifyData _ _ _

theorem fillCount_shape {tid : String} :
    ∀ (count : Nat) (m : Metadata) (c : Nat) {m1 : Metadata} {c1 : Nat}
      {l : List Nat}, fillCount m c tid count = .ok (m1, c1, l) →
      shapeOf m1 = shapeOf m
  | 0, m, c, m1, c1, l, h => by
    unfold fillCount at h
    cases h
    rfl
  | count + 1, m, c, m1, c1, l, h => by
    unfold fillCount at h
    obtain ⟨⟨ma, pa, ca⟩, ha, h⟩ := except_bind_ok h
    obtain ⟨⟨mb, cb, lb⟩, hb, h⟩ := except_bind_ok h
    cases h
    rw [fillCount_shape count ma ca hb, assignPlayer_shape ha]

theorem buildTeams_shape {base : Nat} :
    ∀ (count : Nat) (m : Metadata) (c : Nat) (teamID : Nat) {m1 : Metadata}
      {c1 : Nat} {ts : List Team} {ls : List String},
      buildTeams m c base teamID count = .ok (m1, c1, ts, ls) →
      shapeOf m1 = shapeOf m
  | 0, m, c, teamID, m1, c1, ts, ls, h => by
    unfold buildTeams at h
    cases h
    rfl
  | count + 1, m, c, teamID, m1, c1, ts, ls, h => by
    unfold buildTeams at h
    obtain ⟨⟨ma, ca, la⟩, ha, h⟩ := except_bind_ok h
    dsimp only at h
    cases hh : la.head? with
    | none => rw [hh] at h; cases h
    | some idLeader =>
      rw [hh] at h
      dsimp only at h
      obtain ⟨mb, hb, h⟩ := except_bind_ok h
      obtain ⟨⟨mc, cc, tsc, lsc⟩, hc, h⟩ := except_bind_ok h
      cases h
      rw [buildTeams_shape count mb ca (teamID + 1) hc, setLeaderFlag_shape hb,
        fillCount_shape base m c ha]

theorem addRemainder_shape :
    ∀ (count : Nat) (m : Metadata) (c : Nat) (teams : List Team) (teamID : Nat)
      {m1 : Metadata} {ts : List Team},
      addRemainder m c teams teamID count = .ok (m1, ts) →
      shapeOf m1 = shapeOf m
  | 0, m, c, teams, teamID, m1, ts, h => by
    unfold addRemainder at h
    cases h
    rfl
  | count + 1, m, c, teams, teamID, m1, ts, h => by
    unfold addRemainder at h
    obtain ⟨⟨ma, pa, ca⟩, ha, h⟩ := except_bind_ok h
    dsimp only at h
    cases hf : teams.find? (fun tm => tm.teamID == toString teamID) with
    | none => rw [hf] at h; cases h
    | some tm =>
      rw [hf] at h
      dsimp only at h
      rw [addRemainder_shape count ma ca _ (teamID + 1) h, assignPlayer_shape ha]

/-- A successful `CreateTeam` leaves every slot's name and credentials and
the slot count unchanged, and leaves `setupData` absent when it was
absent. -/
theorem shapeOf_components {a b : Metadata} (h : shapeOf a = shapeOf b) :
    views a = views b ∧ a.setupData = b.setupData ∧
    a.players.length = b.players.length :=
  ⟨congrArg Prod.fst h, congrArg (fun x => x.2.1) h, congrArg (fun x => x.2.2) h⟩

theorem CreateTeam_shape {m m1 : Metadata} {t : Nat} {ts : List Team}
    (h : CreateTeam (some m) (some t) = .ok (m1, ts)) :
    views m1 = views m ∧ m1.players.length = m.players.length ∧
    (m.setupData = none → m1.setupData = none) := by
  unfold CreateTeam at h
  dsimp only at h
  obtain ⟨⟨pa, aa⟩, hscan, h⟩ := except_bind_ok h
  dsimp only at h
  obtain ⟨⟨ma, ca, tsa, lsa⟩, hbuild, h⟩ := except_bind_ok h
  dsimp only at h
  have hma : shapeOf ma = shapeOf m := buildTeams_shape _ m _ 0 hbuild
  have main : ∀ mb : Metadata, ∀ tsb : List Team, shapeOf mb = shapeOf m →
      (Except.ok
        ((match mb.setupData with
          | some sd =>
            { mb with setupData := some { sd with
                teams := some tsb
                adminsID := some (aa.map toString)
                playersID := some (pa.map toString)
                leadersID := some lsa } }
          | none => mb), tsb) : Except ApiError (Metadata × List Team)) = .ok (m1, ts) →
      views m1 = views m ∧ m1.players.length = m.players.length ∧
      (m.setupData = none → m1.setupData = none) := by
    intro mb tsb hmb hfin
    obtain ⟨hv, hsd, hlen⟩ := shapeOf_components hmb
    cases hms : mb.setupData with
    | none =>
      rw [hms] at hfin
      cases hfin
      exact ⟨hv, hlen, fun _ => hms⟩
    | some sd =>
      rw [hms] at hfin
      cases hfin
      refine ⟨hv, hlen, fun hnone => ?_⟩
      rw [hnone, hms] at hsd
      cases hsd
  by_cases hr : (if t = 0 then 0 else pa.length % t) ≠ 0
  · rw [if_pos hr] at h
    obtain ⟨⟨mb, tsb⟩, hrem, h⟩ := except_bind_ok h
    dsimp only at h
    refine main mb tsb ?_ h
    rw [addRemainder_shape _ ma ca tsa 0 hrem]
    exact hma
  · rw [if_neg hr] at h
    obtain ⟨⟨mb, tsb⟩, hok, h⟩ := except_bind_ok h
    dsimp only at h
    cases hok
    exact main ma tsa hma h

theorem UpdateLeader_shape {m m1 : Metadata} {tid : String} {pick nl : Nat}
    (h : UpdateLeader (some m) (some tid) pick = .ok (.rotated m1 nl)) :
    views m1 = views m ∧ m1.players.length = m.players.length := by
  unfold UpdateLeader at h
  dsimp only at h
  obtain ⟨u, hgate, h⟩ := except_bind_ok h
  obtain ⟨⟨oldL, others⟩, hscan, h⟩ := except_bind_ok h
  dsimp only at h
  cases others with
  | nil => exact absurd h (by simp)
  | cons o rest =>
    dsimp only at h
    cases oldL with
    | none => exact absurd h (by simp)
    | some ol =>
      dsimp only at h
      obtain ⟨ma, ha, h⟩ := except_bind_ok h
      obtain ⟨mb, hb, h⟩ := except_bind_ok h
      cases hms : mb.setupData with
      | none => rw [hms] at h; exact absurd h (by simp)
      | some sd2 =>
        rw [hms] at h
        dsimp only at h
        cases hls : sd2.leadersID with
        | none => rw [hls] at h; exact absurd h (by simp)
        | some ls =>
          rw [hls] at h
          dsimp only at h
          cases h
          obtain ⟨hv1, -, hl1⟩ := shapeOf_components (setLeaderFlag_shape ha)
          obtain ⟨hv2, -, hl2⟩ := shapeOf_components (setLeaderFlag_shape hb)
          constructor
          · show views mb = views m
            rw [hv2, hv1]
          · show mb.players.length = m.players.length
            rw [hl2, hl1]

theorem seatedInv_of_views {a b : Metadata} (h : views a = views b)
    (hb : seatedInv b) : seatedInv a := by
  intro p hp
  have hm : (p.name, p.credentials) ∈ views a :=
    List.mem_map_of_mem (fun p => (p.name, p.credentials)) hp
  rw [h] at hm
  obtain ⟨q, hq, he⟩ := List.mem_map.mp hm
  have h1 : q.name = p.name := congrArg Prod.fst he
  have h2 : q.credentials = p.credentials := congrArg Prod.snd he
  rw [← h1, ← h2]
  exact hb q hq

theorem seatedInv_CreateGame (gn : String) (np : Option Int)
    (sd : Option SetupData) (ul : Bool) : seatedInv (CreateGame gn np sd ul) := by
  intro p hp
  unfold CreateGame at hp
  dsimp only at hp
  obtain ⟨i, -, he⟩ := List.mem_map.mp hp
  rw [← he]

theorem truthy_eq_true {o : Option String} (h : truthy o = true) :
    ∃ s, o = some s ∧ s ≠ "" := by
  cases o with
  | none => cases h
  | some s =>
    refine ⟨s, rfl, ?_⟩
    unfold truthy at h
    simpa using h

theorem joinRoom_inv {md : Option Metadata} {pid : Option Nat}
    {pn : Option String} {d : Option PlayerData} {g : String} {m1 : Metadata}
    {cr : String} (h : joinRoom md pid pn d g = .ok (m1, cr))
    (hinv : ∀ m ∈ md, seatedInv m) : seatedInv m1 := by
  unfold joinRoom at h
  cases pid with
  | none => cases h
  | some i =>
    dsimp only at h
    cases htp : truthy pn with
    | false => rw [htp] at h; simp at h
    | true =>
      rw [htp] at h
      simp only [Bool.not_true, Bool.false_eq_true, if_false] at h
      cases md with
      | none => cases h
      | some m =>
        dsimp only at h
        cases hp : getPlayer m i with
        | none => rw [hp] at h; cases h
        | some p =>
          rw [hp] at h
          dsimp only at h
          cases htn : truthy p.name with
          | true => rw [htn] at h; simp at h
          | false =>
            rw [htn] at h
            simp only [if_false, Bool.false_eq_true] at h
            obtain ⟨hm1, -⟩ : _ ∧ g = cr := Prod.mk.injEq .. ▸ Except.ok.inj h
            obtain ⟨s, hs, -⟩ := truthy_eq_true htp
            intro q hq
            rw [← hm1] at hq
            unfold setPlayer at hq
            rcases List.mem_or_eq_of_mem_set hq with hq | hq
            · exact hinv m rfl q hq
            · subst hq
              cases d <;> simp [hs]

theorem leaveRoom_inv {md : Option Metadata} {pid : Option Nat}
    {c : Option String} {m1 : Metadata}
    (h : leaveRoom md pid c = .ok (.set m1))
    (hinv : ∀ m ∈ md, seatedInv m) : seatedInv m1 := by
  unfold leaveRoom at h
  cases pid with
  | none => cases h
  | some i =>
    dsimp only at h
    cases md with
    | none => cases h
    | some m =>
      dsimp only at h
      cases hp : getPlayer m i with
      | none => rw [hp] at h; cases h
      | some p =>
        rw [hp] at h
        dsimp only at h
        by_cases hc : c ≠ p.credentials
        · rw [if_pos hc] at h; cases h
        · rw [if_neg hc] at h
          by_cases hany :
              (setPlayer m i { p with name := none, credentials := none }).players.any
                (fun q => truthy q.name)
          · rw [if_pos hany] at h
            cases h
            intro q hq
            unfold setPlayer at hq
            rcases List.mem_or_eq_of_mem_set hq with hq | hq
            · exact hinv m rfl q hq
            · subst hq; simp
          · rw [if_neg hany] at h
            cases h

theorem updatePlayerMetadata_inv {m : Metadata} {pid : Nat}
    {c : Option String} {nn : Option String} {d : Option PlayerData}
    {m1 : Metadata} (h : updatePlayerMetadata (some m) (some pid) c nn d = .ok m1)
    (hinv : seatedInv m)
    (hsafe : truthy nn = false ∨ ((getPlayer m pid).bind PlayerRecord.credentials).isSome = true) :
    seatedInv m1 := by
  unfold updatePlayerMetadata at h
  dsimp only at h
  by_cases hv : d.isNone && !truthy nn
  · rw [if_pos hv] at h; cases h
  · rw [if_neg hv] at h
    cases hp : getPlayer m pid with
    | none => rw [hp] at h; cases h
    | some p =>
      rw [hp] at h
      dsimp only at h
      by_cases hc : c ≠ p.credentials
      · rw [if_pos hc] at h; cases h
      · rw [if_neg hc] at h
        cases h
        intro q hq
        unfold setPlayer at hq
        rcases List.mem_or_eq_of_mem_set hq with hq | hq
        · exact hinv q hq
        · subst hq
          have hpm : p ∈ m.players := List.get?_mem hp
          cases htn : truthy nn with
          | false =>
            have hiff := hinv p hpm
            cases d <;> simpa [htn] using hiff
          | true =>
            have hcred : p.credentials.isSome = true := by
              rcases hsafe with hsafe | hsafe
              · rw [htn] at hsafe; cases hsafe
              · rw [hp] at hsafe; simpa using hsafe
            obtain ⟨s, hs, -⟩ := truthy_eq_true htn
            cases d <;> simp [htn, hs, hcred]

theorem RejoinGame_ok {md : Option Metadata} {pn c : Option String}
    {m1 : Metadata} (h : RejoinGame md pn c = .ok m1) : md = some m1 := by
  unfold RejoinGame at h
  cases htp : truthy pn with
  | false => rw [htp] at h; simp at h
  | true =>
    rw [htp] at h
    simp only [Bool.not_true, Bool.false_eq_true, if_false] at h
    cases md with
    | none => cases h
    | some m =>
      dsimp only at h
      cases hf : m.players.findIdx? (fun p => p.name == pn) with
      | none => rw [hf] at h; cases h
      | some pid =>
        rw [hf] at h
        dsimp only at h
        cases hp : getPlayer m pid with
        | none => rw [hp] at h; cases h
        | some p =>
          rw [hp] at h
          dsimp only at h
          by_cases hc : c ≠ p.credentials
          · rw [if_pos hc] at h; cases h
          · rw [if_neg hc] at h
            cases h
            rfl

theorem playAgain_ok_cases {md : Option Metadata} {pid : Option Nat}
    {c : Option String} {np : Option Int} {sd : Option SetupData} {ul : Bool}
    {gn f : String} {r : PlayAgainResult}
    (h : playAgain md pid c np sd ul gn f = .ok r) :
    ∀ m1 ∈ (r.created.map Prod.snd).toList ++ r.updated.toList,
      seatedInv m1 ∨ (∃ m, md = some m ∧ m1.players = m.players) := by
  unfold playAgain at h
  cases pid with
  | none => cases h
  | some i =>
    dsimp only at h
    cases md with
    | none => cases h
    | some m =>
      dsimp only at h
      cases hp : getPlayer m i with
      | none => rw [hp] at h; cases h
      | some p =>
        rw [hp] at h
        dsimp only at h
        by_cases hc : c ≠ p.credentials
        · rw [if_pos hc] at h; cases h
        · rw [if_neg hc] at h
          by_cases hn : truthy m.nextRoomID
          · rw [if_pos hn] at h
            cases h
            intro m1 hm1
            simp at hm1
          · rw [if_neg hn] at h
            cases h
            intro m1 hm1
            simp only [Option.map_some, Option.toList_some] at hm1
            rcases List.mem_append.mp hm1 with hm1 | hm1
            · rw [List.mem_singleton.mp hm1]
              exact Or.inl (seatedInv_CreateGame _ _ _ _)
            · rw [List.mem_singleton.mp hm1]
              exact Or.inr ⟨m, rfl, rfl⟩

/-- Claim C3 counterexample: starting from a freshly created two-player
room (which satisfies the seated invariant), a single `update` request that
targets the still-open slot 0 with no credentials and `newName = "X"`
passes the credential check (`undefined !== undefined` is false) and is
persisted with `name` set and `credentials` absent — the seated invariant
does not survive the operation. -/
theorem claim3_counterexample :
    seatedInv (CreateGame "g" (some 2) none false) ∧
    ∃ m1, updatePlayerMetadata (some (CreateGame "g" (some 2) none false))
        (some 0) none (some "X") none = .ok m1 ∧ ¬ seatedInv m1 := by
  exact ⟨by decide, ⟨_, rfl, by decide⟩⟩

/-- Claim C3 (amended): the seated invariant — a slot has a `name` iff it
has `credentials` — is preserved by every operation, provided `update`
requests only rename slots that currently hold credentials (i.e. seated
slots).  Without that proviso the invariant fails: `update` can set a name
on an unseated slot without minting credentials
(see the counterexample). -/
theorem claim3_seated_invariant (op : Op) (md : Option Metadata)
    (hinv : ∀ m ∈ md, seatedInv m) (hsafe : invSafe op md = true) :
    ∀ m1 ∈ persisted op md, seatedInv m1 := by
  intro m1 hm1
  cases op with
  | create np sd ul gn =>
    unfold persisted at hm1
    dsimp only at hm1
    rw [List.mem_singleton.mp hm1]
    exact seatedInv_CreateGame gn np sd ul
  | join pid pn d g =>
    unfold persisted at hm1
    dsimp only at hm1
    cases hj : joinRoom md pid pn d g with
    | error e => rw [hj] at hm1; cases hm1
    | ok r =>
      obtain ⟨m2, cr⟩ := r
      rw [hj] at hm1
      dsimp only at hm1
      rw [List.mem_singleton.mp hm1]
      exact joinRoom_inv hj hinv
  | leave pid c =>
    unfold persisted at hm1
    dsimp only at hm1
    cases hl : leaveRoom md pid c with
    | error e => rw [hl] at hm1; cases hm1
    | ok eff =>
      cases eff with
      | wipe => rw [hl] at hm1; cases hm1
      | set m2 =>
        rw [hl] at hm1
        dsimp only at hm1
        rw [List.mem_singleton.mp hm1]
        exact leaveRoom_inv hl hinv
  | update pid c nn d =>
    unfold persisted at hm1
    dsimp only at hm1
    cases hu : updatePlayerMetadata md pid c nn d with
    | error e => rw [hu] at hm1; cases hm1
    | ok m2 =>
      rw [hu] at hm1
      dsimp only at hm1
      rw [List.mem_singleton.mp hm1]
      cases pid with
      | none =>
        unfold updatePlayerMetadata at hu
        cases hu
      | some i =>
        cases md with
        | none =>
          unfold updatePlayerMetadata at hu
          dsimp only at hu
          by_cases hb : d.isNone && !truthy nn
          · rw [if_pos hb] at hu
            cases hu
          · rw [if_neg hb] at hu
            cases hu
        | some m =>
          unfold invSafe at hsafe
          rcases Bool.or_eq_true .. |>.mp hsafe with hsafe | hsafe
          · exact updatePlayerMetadata_inv hu (hinv m rfl)
              (Or.inl (Bool.not_eq_true' .. |>.mp hsafe))
          · exact updatePlayerMetadata_inv hu (hinv m rfl) (Or.inr hsafe)
  | rejoin pn c =>
    unfold persisted at hm1
    dsimp only at hm1
    cases hr : RejoinGame md pn c with
    | error e => rw [hr] at hm1; cases hm1
    | ok m2 =>
      rw [hr] at hm1
      dsimp only at hm1
      rw [List.mem_singleton.mp hm1]
      exact hinv m2 (by rw [RejoinGame_ok hr]; rfl)
  | playAgainOp pid c np sd ul gn f =>
    unfold persisted at hm1
    dsimp only at hm1
    cases hp : playAgain md pid c np sd ul gn f with
    | error e => rw [hp] at hm1; cases hm1
    | ok r =>
      rw [hp] at hm1
      rcases playAgain_ok_cases hp m1 hm1 with hok | ⟨m, rfl, hpl⟩
      · exact hok
      · intro q hq
        rw [hpl] at hq
        exact hinv m rfl q hq
  | formTeams t =>
    unfold persisted at hm1
    dsimp only at hm1
    cases hc : CreateTeam md t with
    | error e => rw [hc] at hm1; cases hm1
    | ok r =>
      obtain ⟨m2, ts⟩ := r
      rw [hc] at hm1
      dsimp only at hm1
      rw [List.mem_singleton.mp hm1]
      cases t with
      | none => cases hc
      | some t =>
        cases md with
        | none => cases hc
        | some m =>
          obtain ⟨hv, -, -⟩ := CreateTeam_shape hc
          exact seatedInv_of_views hv (hinv m rfl)
  | rotateLeader tid p =>
    unfold persisted at hm1
    dsimp only at hm1
    cases hu : UpdateLeader md tid p with
    | error e => rw [hu] at hm1; cases hm1
    | ok r =>
      cases r with
      | onlyOne => rw [hu] at hm1; cases hm1
      | rotated m2 nl =>
        rw [hu] at hm1
        dsimp only at hm1
        rw [List.mem_singleton.mp hm1]
        cases tid with
        | none => cases hu
        | some tid =>
          cases md with
          | none => cases hu
          | some m =>
            obtain ⟨hv, -⟩ := UpdateLeader_shape hu
            exact seatedInv_of_views hv (hinv m rfl)

/-- Claim C3 witness: the room persisted by a concrete seated-slot rename
on `room4` satisfies the seated invariant. -/
theorem claim3_witness :
    seatedInv (setPlayer room4 0 { seat 0 "A" pdPlayer with name := some "N" }) :=
  claim3_seated_invariant (Op.update (some 0) (some "cred0") (some "N") none)
    (some room4)
    (by simp only [Option.mem_def, Option.some.injEq]; rintro m rfl; decide)
    (by decide)
    (setPlayer room4 0 { seat 0 "A" pdPlayer with name := some "N" })
    (by decide)

/-- Claim C8 counterexample: `numPlayers = 0` is a numeric value, yet the
room is created with 2 slots, not 0, because `!numPlayers` is true for `0`
in JavaScript. -/
theorem claim8_counterexample :
    (CreateGame "g" (some 0) none false).players.length = 2 ∧
    (CreateGame "g" (some 0) none false).players.length ≠ 0 := by
  decide

/-- Claim C8 (amended): for every `numPlayers = k` with `k ≥ 1`,
`CreateRoom` yields exactly `k` player slots indexed contiguously
`0..k-1`, each holding only its `id` (no name, no credentials, no data);
when `numPlayers` is absent or non-numeric (`NaN`) it defaults to 2.  The
original claim fails only at `k = 0` (falsy in JavaScript, so it also
defaults to 2; a negative `k` produces an empty slot list). -/
theorem claim8_createGame_slots (gn : String) (sd : Option SetupData)
    (ul : Bool) (k : Int) (hk : 1 ≤ k) :
    (CreateGame gn (some k) sd ul).players.length = k.toNat ∧
    (∀ i : Nat, (i : Int) < k →
      getPlayer (CreateGame gn (some k) sd ul) i =
        some { id := i, name := none, credentials := none, data := none }) ∧
    (CreateGame gn none sd ul).players.length = 2 := by
  have hk0 : k ≠ 0 := by omega
  refine ⟨?_, ?_, ?_⟩
  · unfold CreateGame
    simp [hk0]
  · intro i hi
    unfold CreateGame getPlayer
    dsimp only
    rw [if_neg hk0]
    rw [List.get?_map, List.get?_range (Int.lt_toNat.mpr hi)]
    rfl
  · rfl

/-- Claim C8 witness: instantiation at `k = 3`. -/
theorem claim8_witness :
    (CreateGame "g" (some 3) none false).players.length = (3 : Int).toNat ∧
    (∀ i : Nat, (i : Int) < 3 →
      getPlayer (CreateGame "g" (some 3) none false) i =
        some { id := i, name := none, credentials := none, data := none }) ∧
    (CreateGame "g" none none false).players.length = 2 :=
  claim8_createGame_slots "g" none false 3 (by decide)

/-- Claim C1 (code bug): on a room whose four seated slots carry the role
flags player, admin, admin, player — eligible players `[0, 3]`, team count
`1 ≤ 2` — the fill cursor skips only one admin per step, so `CreateTeam`
returns the single team `["0", "2"]`: it contains the admin-flagged slot 2
and omits the eligible slot 3, instead of partitioning exactly the
eligible players. -/
theorem claim1_cursor_assigns_admin :
    eligiblePlayers roomPAAP = [0, 3] ∧
    (CreateTeam (some roomPAAP) (some 1)).toOption.map
        (fun r => r.2.map Team.playersID) = some [["0", "2"]] ∧
    (2 : Nat) ∉ eligiblePlayers roomPAAP ∧
    (3 : Nat) ∈ eligiblePlayers roomPAAP ∧
    (getData roomPAAP 2).map PlayerData.admin = some true := by
  decide

/-- Claim C9 counterexample: on a two-player room whose caller supplied no
`setupData` object, `CreateTeam` with `numOfTeams = 1` does not fail with a
`ValidationError` — it completes, and a mutated room record (team data
written onto the players, `setupData` still absent) is persisted. -/
theorem claim9_counterexample :
    roomNoSD.setupData = none ∧
    (CreateTeam (some roomNoSD) (some 1)).toOption.isSome = true ∧
    (∀ e, CreateTeam (some roomNoSD) (some 1) ≠ .error e) ∧
    persisted (.formTeams (some 1)) (some roomNoSD) ≠ [] ∧
    persisted (.formTeams (some 1)) (some roomNoSD) ≠ [roomNoSD] := by
  refine ⟨rfl, rfl, ?_, by decide, by decide⟩
  intro e h
  cases h.symm.trans (show CreateTeam (some roomNoSD) (some 1) = .ok _ from rfl)

/-- Claim C9 (amended): `CreateTeam` fails with a `ValidationError` when
`numOfTeams` is absent, and in that failure case persists no mutation (the
throw precedes every write).  A missing `setupData` container is *not* a
failure: the operation completes, persisting the per-player team
assignments, and merely skips storing the aggregate lists (so `setupData`
stays absent in the persisted record). -/
theorem claim9_formTeams_validation (md : Option Metadata) (m m1 : Metadata)
    (t : Nat) (ts : List Team) :
    CreateTeam md none = .error (.validation "Define number of team") ∧
    persisted (.formTeams none) md = [] ∧
    (CreateTeam (some m) (some t) = .ok (m1, ts) → m.setupData = none →
      m1.setupData = none) := by
  refine ⟨rfl, ?_, fun h hsd => (CreateTeam_shape h).2.2 hsd⟩
  unfold persisted
  rfl

/-- Claim C9 witness: instantiation of the amended claim on `roomNoSD`. -/
theorem claim9_witness :
    CreateTeam (some roomNoSD) none =
      .error (.validation "Define number of team") ∧
    persisted (.formTeams none) (some roomNoSD) = [] ∧
    (CreateTeam (some roomNoSD) (some 1) =
        .ok ((CreateTeam (some roomNoSD) (some 1)).toOption.get rfl) →
      roomNoSD.setupData = none →
      ((CreateTeam (some roomNoSD) (some 1)).toOption.get rfl).1.setupData = none) := by
  have h := claim9_formTeams_validation (some roomNoSD)
    roomNoSD ((CreateTeam (some roomNoSD) (some 1)).toOption.get rfl).1 1
    ((CreateTeam (some roomNoSD) (some 1)).toOption.get rfl).2
  exact ⟨h.1, h.2.1, fun hok hsd => h.2.2 hok hsd⟩

/-- The eligibility scan of `CreateTeam` crashes with a `TypeError` as soon
as any scanned slot lacks a `data` object. -/
theorem scanRolesFrom_error (m : Metadata) :
    ∀ (idx : List Nat) (i : Nat), i ∈ idx → getData m i = none →
      scanRolesFrom m idx = .error .typeError
  | [], i, hi, _ => absurd hi (List.not_mem_nil i)
  | a :: rest, i, hi, hd => by
    unfold scanRolesFrom
    rcases List.mem_cons.mp hi with rfl | hi
    · rw [hd]
    · cases ha : getData m a with
      | none => rfl
      | some d =>
        dsimp only
        rw [scanRolesFrom_error m rest i hi hd]
        rfl

/-- Claim C10: whenever some slot of the room lacks a `data` object (for
example an open slot, or a joiner who supplied no `data`), `CreateTeam`
with any supplied `numOfTeams` reaches the crash branch — the scan
dereferences `metadata.players[id].data.player` — and the result is the
modelled `TypeError`, not a normal completion and not a
`ValidationError`/`NotFoundError` of the taxonomy. -/
theorem claim10_missing_data_crashes (m : Metadata) (t : Nat) (i : Nat)
    (hi : i < m.players.length) (hd : getData m i = none) :
    CreateTeam (some m) (some t) = .error .typeError := by
  unfold CreateTeam scanRoles
  dsimp only
  rw [scanRolesFrom_error m (List.range m.players.length) i
    (List.mem_range.mpr hi) hd]
  rfl

/-- Claim C10 witness: the fixture room with an open (dataless) slot. -/
theorem claim10_witness :
    CreateTeam (some roomOpen) (some 1) = .error .typeError :=
  claim10_missing_data_crashes roomOpen 1 1 (by decide) (by decide)

/-- Claim C5: joining an open slot seats the player (name, fresh
credentials, optional data) and returns the minted credentials; a second
join to the same slot fails with the 409 `ConflictError` while the slot
keeps the first joiner's name and credentials; a missing `playerID` or
`playerName` is a 403 `ValidationError`; an absent room or slot is a 404
`NotFoundError`. -/
theorem claim5_join_semantics (md : Option Metadata) (m : Metadata)
    (pid : Nat) (p : PlayerRecord) (pn : String) (hpn : pn ≠ "")
    (d : Option PlayerData) (g : String) :
    (joinRoom md none (some pn) d g =
      .error (.validation "playerID is required")) ∧
    (joinRoom md (some pid) none d g =
      .error (.validation "playerName is required")) ∧
    (joinRoom none (some pid) (some pn) d g =
      .error (.notFound "Game not found")) ∧
    (getPlayer m pid = none →
      joinRoom (some m) (some pid) (some pn) d g =
        .error (.notFound "Player not found")) ∧
    (getPlayer m pid = some p → truthy p.name = false →
      ∃ m1, joinRoom (some m) (some pid) (some pn) d g = .ok (m1, g) ∧
        getPlayer m1 pid = some { p with
          name := some pn, credentials := some g,
          data := (match d with | some dd => some dd | none => p.data) } ∧
        (∀ j, j ≠ pid → getPlayer m1 j = getPlayer m j) ∧
        (∀ pn2 d2 g2, pn2 ≠ "" →
          joinRoom (some m1) (some pid) (some pn2) d2 g2 =
            .error (.conflict "Player not available"))) := by
  have htp : truthy (some pn) = true := by simp [truthy, hpn]
  refine ⟨rfl, rfl, ?_, ?_, ?_⟩
  · unfold joinRoom
    rw [htp]
    rfl
  · intro hp
    unfold joinRoom
    rw [htp]
    dsimp only
    rw [hp]
    rfl
  · intro hp hopen
    refine ⟨setPlayer m pid { p with name := some pn, credentials := some g, data := (match d with | some dd => some dd | none => p.data) }, ?_, ?_, ?_, ?_⟩
    · unfold joinRoom
      rw [htp]
      dsimp only
      rw [hp]
      dsimp only
      rw [hopen]
      cases d <;> rfl
    · exact getPlayer_setPlayer_self hp _
    · intro j hj
      exact getPlayer_setPlayer_ne m _ (fun he => hj he.symm)
    · intro pn2 d2 g2 hpn2
      have htp2 : truthy (some pn2) = true := by simp [truthy, hpn2]
      unfold joinRoom
      rw [htp2]
      dsimp only
      rw [getPlayer_setPlayer_self hp _]
      dsimp only
      have : truthy (some pn) = true := htp
      cases d <;> simp [this]

/-- Claim C5 witness: slot 0 of a fresh two-player room is open; joining
it succeeds with the minted credentials and a second join conflicts. -/
theorem claim5_witness :
    ∃ m1, joinRoom (some (CreateGame "g" (some 2) none false)) (some 0)
        (some "A") none "c0" = .ok (m1, "c0") ∧
      getPlayer m1 0 = some { id := 0, name := some "A", credentials := some "c0", data := none } ∧
      (∀ j, j ≠ 0 → getPlayer m1 j =
        getPlayer (CreateGame "g" (some 2) none false) j) ∧
      (∀ pn2 d2 g2, pn2 ≠ "" →
        joinRoom (some m1) (some 0) (some pn2) d2 g2 =
          .error (.conflict "Player not available")) := by
  have h := claim5_join_semantics (some (CreateGame "g" (some 2) none false))
    (CreateGame "g" (some 2) none false) 0
    { id := 0, name := none, credentials := none, data := none }
    "A" (by decide) none "c0"
  obtain ⟨m1, h1, h2, h3, h4⟩ := h.2.2.2.2 (by decide) (by decide)
  exact ⟨m1, h1, h2, h3, h4⟩

/-- Claim C6: a credential-valid leave clears the slot's `name` and
`credentials` (other slots untouched); when some other slot is still
seated the cleared record is persisted, and when no slot remains seated
the room record is deleted (`db.wipe`) instead, making it unfetchable. -/
theorem claim6_leave_semantics (m : Metadata) (pid : Nat) (p : PlayerRecord)
    (hp : getPlayer m pid = some p) (c : Option String)
    (hc : c = p.credentials) :
    match leaveRoom (some m) (some pid) c with
    | .ok (.set m1) =>
      getPlayer m1 pid = some { p with name := none, credentials := none } ∧
      (∀ j, j ≠ pid → getPlayer m1 j = getPlayer m j) ∧
      (∃ j q, j ≠ pid ∧ getPlayer m j = some q ∧ truthy q.name = true)
    | .ok .wipe =>
      ∀ j q, j ≠ pid → getPlayer m j = some q → truthy q.name = false
    | .error _ => False := by
  have hcc : ¬ c ≠ p.credentials := fun h => h hc
  unfold leaveRoom
  dsimp only
  rw [hp]
  dsimp only
  rw [if_neg hcc]
  by_cases hany : (setPlayer m pid
      { p with name := none, credentials := none }).players.any
      (fun q => truthy q.name)
  · rw [if_pos hany]
    dsimp only
    refine ⟨getPlayer_setPlayer_self hp _, ?_, ?_⟩
    · intro j hj
      exact getPlayer_setPlayer_ne m _ (fun he => hj he.symm)
    · obtain ⟨q, hq, hqt⟩ := List.any_eq_true.mp hany
      obtain ⟨j, hj⟩ := List.mem_iff_get?.mp hq
      have hj2 : getPlayer (setPlayer m pid
          { p with name := none, credentials := none }) j = some q := hj
      have hjp : j ≠ pid := by
        intro he
        subst he
        rw [getPlayer_setPlayer_self hp _] at hj2
        injection hj2 with hj2
        rw [← hj2] at hqt
        exact Bool.noConfusion hqt
      rw [getPlayer_setPlayer_ne m _ (fun he => hjp he.symm)] at hj2
      exact ⟨j, q, hjp, hj2, hqt⟩
  · rw [if_neg hany]
    dsimp only
    intro j q hj hq
    by_contra hqt
    apply hany
    refine List.any_eq_true.mpr ⟨q, ?_, by simpa using hqt⟩
    have hg : getPlayer (setPlayer m pid
        { p with name := none, credentials := none }) j = some q := by
      rw [getPlayer_setPlayer_ne m _ (fun he => hj he.symm)]
      exact hq
    exact List.get?_mem hg

/-- Claim C6 witness: slot 0 of `room4` leaves with its stored credential;
slots 1-3 are still seated, so the cleared record is persisted. -/
theorem claim6_witness :
    match leaveRoom (some room4) (some 0) (some "cred0") with
    | .ok (.set m1) =>
      getPlayer m1 0 =
        some { seat 0 "A" pdPlayer with name := none, credentials := none } ∧
      (∀ j, j ≠ 0 → getPlayer m1 j = getPlayer room4 j) ∧
      (∃ j q, j ≠ 0 ∧ getPlayer room4 j = some q ∧ truthy q.name = true)
    | .ok .wipe =>
      ∀ j q, j ≠ 0 → getPlayer room4 j = some q → truthy q.name = false
    | .error _ => False :=
  claim6_leave_semantics room4 0 (seat 0 "A" pdPlayer) (by decide)
    (some "cred0") (by decide)

/-- Claim C2: for a request that targets an existing slot and is otherwise
fully valid, each of `leave`, `update` (and its deprecated `rename` alias),
`playAgain`, and `rejoin` rejects any supplied credential different from
the one stored on the targeted slot with the 403 `AuthorizationError`
`"Invalid credentials"` — never silently; for `rejoin` the targeted slot is
the first one whose stored name equals the supplied `playerName`. -/
theorem claim2_auth_mismatch (m : Metadata) (pid : Nat) (p : PlayerRecord)
    (hp : getPlayer m pid = some p) (c : Option String)
    (hc : c ≠ p.credentials) (nn : String) (hnn : nn ≠ "")
    (d : Option PlayerData) (np : Option Int) (sd : Option SetupData)
    (ul : Bool) (gn fz : String) (pn : String) (hpn : pn ≠ "")
    (hfind : m.players.findIdx? (fun q => q.name == some pn) = some pid) :
    leaveRoom (some m) (some pid) c = .error (.auth "Invalid credentials") ∧
    updatePlayerMetadata (some m) (some pid) c (some nn) d =
      .error (.auth "Invalid credentials") ∧
    playAgain (some m) (some pid) c np sd ul gn fz =
      .error (.auth "Invalid credentials") ∧
    RejoinGame (some m) (some pn) c = .error (.auth "Invalid credentials") := by
  have htn : truthy (some nn) = true := by simp [truthy, hnn]
  refine ⟨?_, ?_, ?_, ?_⟩
  · unfold leaveRoom
    dsimp only
    rw [hp]
    dsimp only
    rw [if_pos hc]
  · unfold updatePlayerMetadata
    dsimp only
    have hcond : (d.isNone && !truthy (some nn)) = false := by
      rw [htn]
      simp
    rw [hcond, if_neg Bool.false_ne_true]
    rw [hp]
    dsimp only
    rw [if_pos hc]
  · unfold playAgain
    dsimp only
    rw [hp]
    dsimp only
    rw [if_pos hc]
  · have hfp : truthy (some pn) = true := by simp [truthy, hpn]
    unfold RejoinGame
    rw [hfp, if_neg (by decide : ¬ ((!true) = true))]
    dsimp only
    rw [hfind]
    dsimp only
    rw [hp]
    dsimp only
    rw [if_pos hc]

/-- Claim C2 witness: the seated slot 0 of `room4` (stored credential
`"cred0"`) rejects the supplied credential `"wrong"` in all four
operations. -/
theorem claim2_witness :
    leaveRoom (some room4) (some 0) (some "wrong") =
      .error (.auth "Invalid credentials") ∧
    updatePlayerMetadata (some room4) (some 0) (some "wrong") (some "N") none =
      .error (.auth "Invalid credentials") ∧
    playAgain (some room4) (some 0) (some "wrong") none none false "g" "f1" =
      .error (.auth "Invalid credentials") ∧
    RejoinGame (some room4) (some "A") (some "wrong") =
      .error (.auth "Invalid credentials") :=
  claim2_auth_mismatch room4 0 (seat 0 "A" pdPlayer) (by decide)
    (some "wrong") (by decide) "N" (by decide) none none none false "g" "f1"
    "A" (by decide) (by decide)

/-- Claim C4: `playAgain` is idempotent.  If a first call on a room
succeeds with body `nextRoomID = r` (which is non-empty whenever the
injected uuid is), then the room now stored — the updated record, or the
unchanged one when the call short-circuited — carries `nextRoomID = r`,
and any second succession request against it with valid credentials and
arbitrary `numPlayers`/`setupData`/`unlisted` arguments returns exactly
the same `nextRoomID`, creates no second successor room and persists
nothing. -/
theorem claim4_playAgain_idempotent (m : Metadata) (pid : Nat)
    (c : Option String) (np : Option Int) (sd : Option SetupData) (ul : Bool)
    (gn f : String) (r : PlayAgainResult)
    (h1 : playAgain (some m) (some pid) c np sd ul gn f = .ok r)
    (hf : r.nextRoomID ≠ "") (m1 : Metadata)
    (hm1 : r.updated = some m1 ∨ (r.updated = none ∧ m1 = m))
    (pid2 : Nat) (p2 : PlayerRecord) (hp2 : getPlayer m1 pid2 = some p2)
    (c2 : Option String) (hc2 : c2 = p2.credentials)
    (np2 : Option Int) (sd2 : Option SetupData) (ul2 : Bool) (gn2 f2 : String) :
    m1.nextRoomID = some r.nextRoomID ∧
    playAgain (some m1) (some pid2) c2 np2 sd2 ul2 gn2 f2 =
      .ok { nextRoomID := r.nextRoomID, created := none, updated := none } := by
  have hkey : m1.nextRoomID = some r.nextRoomID := by
    unfold playAgain at h1
    dsimp only at h1
    cases hp1 : getPlayer m pid with
    | none => rw [hp1] at h1; cases h1
    | some p =>
      rw [hp1] at h1
      dsimp only at h1
      by_cases hcr : c ≠ p.credentials
      · rw [if_pos hcr] at h1; cases h1
      · rw [if_neg hcr] at h1
        by_cases htr : truthy m.nextRoomID
        · rw [if_pos htr] at h1
          cases h1
          obtain ⟨s, hs, -⟩ := truthy_eq_true htr
          rcases hm1 with hm1 | ⟨-, rfl⟩
          · cases hm1
          · rw [hs]
            rfl
        · rw [if_neg htr] at h1
          cases h1
          rcases hm1 with hm1 | ⟨hm1, -⟩
          · injection hm1 with hm1
            rw [← hm1]
          · cases hm1
  have hc2n : ¬ c2 ≠ p2.credentials := fun h => h hc2
  have htr1 : truthy m1.nextRoomID = true := by
    rw [hkey]
    simp [truthy, hf]
  refine ⟨hkey, ?_⟩
  unfold playAgain
  dsimp only
  rw [hp2]
  dsimp only
  rw [if_neg hc2n, htr1, if_pos rfl, hkey]
  rfl

/-- Claim C4 witness: the first `playAgain` on `room4` creates successor
`"f1"`; the second request on the updated record, with different
arguments, returns `"f1"` again and creates and persists nothing. -/
theorem claim4_witness :
    (Metadata.nextRoomID { room4 with nextRoomID := some "f1" }) = some "f1" ∧
    playAgain (some { room4 with nextRoomID := some "f1" }) (some 1)
        (some "cred1") (some 7) (some SetupData.empty) true "g" "f2" =
      .ok { nextRoomID := "f1", created := none, updated := none } :=
  claim4_playAgain_idempotent room4 0 (some "cred0") none none false "g" "f1"
    { nextRoomID := "f1", created := some ("f1", CreateGame "g" (some 4) (some SetupData.empty) false), updated := some { room4 with nextRoomID := some "f1" } }
    rfl (by decide) { room4 with nextRoomID := some "f1" } (Or.inl rfl)
    1 (seat 1 "B" pdPlayer) (by decide) (some "cred1") (by decide)
    (some 7) (some SetupData.empty) true "g" "f2"

/-! ### Lemmas for leader rotation (claim C7) -/

theorem getLast?_cons_or {α : Type _} :
    ∀ (xs : List α) (i : α) (a : Option α),
      ((i :: xs).getLast?).or a = (xs.getLast?).or (some i)
  | [], i, a => rfl
  | x :: xs, i, a => by
    rw [List.getLast?_cons_cons]
    have hs : (x :: xs).getLast?.isSome := by
      rw [List.getLast?_isSome]
      exact List.cons_ne_nil x xs
    obtain ⟨y, hy⟩ := Option.isSome_iff_exists.mp hs
    rw [hy]
    rfl

theorem memberOf_dest {m : Metadata} {tid : String} {i : Nat}
    (h : memberOf m tid i = true) :
    ∃ d td, getData m i = some d ∧ d.teamData = some td ∧ td.teamID = tid := by
  unfold memberOf at h
  cases hd : getData m i with
  | none => rw [hd] at h; cases h
  | some d =>
    rw [hd] at h
    dsimp only at h
    cases htd : d.teamData with
    | none => rw [htd] at h; cases h
    | some td =>
      rw [htd] at h
      exact ⟨d, td, rfl, htd, by simpa using h⟩

theorem isLeaderOf_dest {m : Metadata} {tid : String} {i : Nat}
    (h : isLeaderOf m tid i = true) :
    ∃ d td, getData m i = some d ∧ d.teamData = some td ∧
      td.teamID = tid ∧ td.leader = true := by
  unfold isLeaderOf at h
  cases hd : getData m i with
  | none => rw [hd] at h; cases h
  | some d =>
    rw [hd] at h
    dsimp only at h
    cases htd : d.teamData with
    | none => rw [htd] at h; cases h
    | some td =>
      rw [htd] at h
      obtain ⟨h1, h2⟩ := Bool.and_eq_true .. |>.mp h
      exact ⟨d, td, rfl, htd, by simpa using h1, h2⟩

theorem memberOf_eval {m : Metadata} {i : Nat} {d : PlayerData}
    {td : TeamData} (hd : getData m i = some d) (htd : d.teamData = some td)
    (tid : String) : memberOf m tid i = decide (td.teamID = tid) := by
  unfold memberOf
  rw [hd]
  dsimp only
  rw [htd]

theorem isLeaderOf_eval {m : Metadata} {i : Nat} {d : PlayerData}
    {td : TeamData} (hd : getData m i = some d) (htd : d.teamData = some td)
    (tid : String) :
    isLeaderOf m tid i = (decide (td.teamID = tid) && td.leader) := by
  unfold isLeaderOf
  rw [hd]
  dsimp only
  rw [htd]

theorem memberOf_eval' {m : Metadata} {i : Nat} {d : PlayerData}
    (hd : getData m i = some d) (htd : d.teamData = none) (tid : String) :
    memberOf m tid i = false := by
  unfold memberOf
  rw [hd]
  dsimp only
  rw [htd]

theorem isLeaderOf_eval' {m : Metadata} {i : Nat} {d : PlayerData}
    (hd : getData m i = some d) (htd : d.teamData = none) (tid : String) :
    isLeaderOf m tid i = false := by
  unfold isLeaderOf
  rw [hd]
  dsimp only
  rw [htd]

/-- Characterisation of the member scan: when every scanned slot has data,
it returns the last leader seen (or the accumulator) and the accumulated
non-leader members in order. -/
theorem scanTeamFrom_spec (m : Metadata) (tid : String) :
    ∀ (idx : List Nat), (∀ i ∈ idx, (getData m i).isSome = true) →
      ∀ (a : Option Nat) (l : List Nat),
      scanTeamFrom m tid (a, l) idx =
        .ok ((idx.filter (isLeaderOf m tid)).getLast?.or a,
          l ++ idx.filter
            (fun i => memberOf m tid i && !isLeaderOf m tid i))
  | [], _, a, l => by
    unfold scanTeamFrom
    rw [List.filter_nil, List.filter_nil, List.append_nil]
    rfl
  | i :: rest, hdata, a, l => by
    have hi : (getData m i).isSome = true := hdata i (List.mem_cons_self i rest)
    have hrest : ∀ j ∈ rest, (getData m j).isSome = true :=
      fun j hj => hdata j (List.mem_cons_of_mem i hj)
    obtain ⟨d, hd⟩ := Option.isSome_iff_exists.mp hi
    unfold scanTeamFrom
    rw [hd]
    dsimp only
    rw [List.filter_cons, List.filter_cons]
    cases htd : d.teamData with
    | none =>
      dsimp only
      rw [memberOf_eval' hd htd tid, isLeaderOf_eval' hd htd tid]
      simp only [Bool.false_eq_true, if_false, Bool.false_and]
      exact scanTeamFrom_spec m tid rest hrest a l
    | some td =>
      dsimp only
      rw [memberOf_eval hd htd tid, isLeaderOf_eval hd htd tid]
      by_cases hteq : td.teamID = tid
      · rw [if_pos hteq]
        cases hld : td.leader with
        | true =>
          rw [if_pos rfl]
          have c1 : (decide (td.teamID = tid) && true) = true := by
            simp [hteq]
          have c2 : (decide (td.teamID = tid) && !true) = false := by
            simp
          rw [c1, if_pos rfl, c2, if_neg Bool.false_ne_true]
          rw [scanTeamFrom_spec m tid rest hrest (some i) l, getLast?_cons_or]
        | false =>
          rw [if_neg Bool.false_ne_true]
          have c1 : (decide (td.teamID = tid) && false) = false := by
            simp
          have c2 : (decide (td.teamID = tid) && !false) = true := by
            simp [hteq]
          rw [c1, if_neg Bool.false_ne_true, c2, if_pos rfl]
          rw [scanTeamFrom_spec m tid rest hrest a (l ++ [i])]
          simp
      · rw [if_neg hteq]
        have c0 : decide (td.teamID = tid) = false := by
          simp [hteq]
        rw [c0]
        simp only [Bool.false_and, Bool.false_eq_true, if_false]
        exact scanTeamFrom_spec m tid rest hrest a l

theorem scanTeam_spec (m : Metadata) (tid : String)
    (hdata : ∀ i, i < m.players.length → (getData m i).isSome = true) :
    scanTeam m tid = .ok ((teamLeaders m tid).getLast?, teamNonLeaders m tid) := by
  unfold scanTeam teamLeaders teamNonLeaders
  rw [scanTeamFrom_spec m tid _
    (fun i hi => hdata i (List.mem_range.mp hi)) none []]
  rw [Option.or_none, List.nil_append]

theorem memberOf_of_isLeaderOf {m : Metadata} {tid : String} {i : Nat}
    (h : isLeaderOf m tid i = true) : memberOf m tid i = true := by
  obtain ⟨d, td, hd, htd, hteq, -⟩ := isLeaderOf_dest h
  rw [memberOf_eval hd htd tid]
  simp [hteq]

theorem leaders_nonLeaders_length (m : Metadata) (tid : String) :
    (teamLeaders m tid).length + (teamNonLeaders m tid).length =
      (teamMembers m tid).length := by
  unfold teamLeaders teamNonLeaders teamMembers
  have hL : (List.range m.players.length).filter (isLeaderOf m tid) =
      ((List.range m.players.length).filter (memberOf m tid)).filter
        (isLeaderOf m tid) := by
    rw [List.filter_filter]
    refine (List.filter_congr ?_).symm
    intro i hi
    cases hld : isLeaderOf m tid i with
    | true => rw [memberOf_of_isLeaderOf hld]; rfl
    | false => rfl
  have hN : (List.range m.players.length).filter
      (fun i => memberOf m tid i && !isLeaderOf m tid i) =
      ((List.range m.players.length).filter (memberOf m tid)).filter
        (fun i => !isLeaderOf m tid i) := by
    rw [List.filter_filter]
    refine (List.filter_congr ?_).symm
    intro i hi
    rw [Bool.and_comm]
  rw [hL, hN]
  exact (List.length_eq_length_filter_add _).symm

theorem getD_mem_of_lt {l : List Nat} {n : Nat} (h : n < l.length) (d : Nat) :
    l.getD n d ∈ l := by
  have hg : l.getD n d = (l.get? n).getD d := rfl
  rw [hg, List.get?_eq_get h]
  exact List.get_mem l n h

theorem get?_indexOf {l : List String} {a : String} (h : a ∈ l) :
    l.get? (l.indexOf a) = some a := by
  have hlt : l.indexOf a < l.length := List.indexOf_lt_length.mpr h
  rw [List.get?_eq_get hlt, List.indexOf_get hlt]

/-- The two data mutations `setLeaderFlag` performs keep the recorded
`teamData.teamID` of every slot, so team membership (for every team) is
unchanged. -/
theorem memberOf_modify_leader (m : Metadata) (i : Nat) (td2 : TeamData)
    (b : Bool) {d : PlayerData} {td : TeamData} (hd : getData m i = some d)
    (htd : d.teamData = some td) (hid : td2.teamID = td.teamID) :
    ∀ tid2 j, memberOf
      (modifyData m i (fun dd =>
        { dd with teamData := some td2, leader := some b })) tid2 j =
      memberOf m tid2 j := by
  intro tid2 j
  rcases eq_or_ne i j with rfl | hne
  · rw [memberOf_eval (getData_modifyData_self _ hd) rfl tid2,
      memberOf_eval hd htd tid2, hid]
  · unfold memberOf
    rw [getData_modifyData_ne m _ hne]

/-- Claim C7: on a room with recorded teams (a `setupData` holding `teams`
and `leadersID`), all slots carrying `data`, and team `tid` having exactly
one flagged leader `lead` that appears in the aggregate leader list:
a `teamID` matching no recorded team is a 404 `NotFoundError`; on a team
of at most one member the operation is a no-op on stored state
(`onlyOne`); on a team of two or more members, for every random pick, the
new leader is chosen among the team's current non-leader members (hence
differs from `lead`), the prior leader is demoted, membership of every
team is left unchanged, and the aggregate leader list is updated by
replacing `lead` at its position with the new leader. -/
theorem claim7_rotateLeader (m : Metadata) (tid : String) (pick : Nat)
    (sd : SetupData) (ts : List Team) (ls : List String) (lead : Nat)
    (hsd : m.setupData = some sd) (hts : sd.teams = some ts)
    (hls : sd.leadersID = some ls)
    (hdata : ∀ i, i < m.players.length → (getData m i).isSome = true)
    (hlead : teamLeaders m tid = [lead])
    (hmem : (toString lead) ∈ ls) :
    ((∀ tm ∈ ts, tm.teamID ≠ tid) →
      UpdateLeader (some m) (some tid) pick =
        .error (.notFound "Team not found")) ∧
    ((∃ tm ∈ ts, tm.teamID = tid) → (teamMembers m tid).length ≤ 1 →
      UpdateLeader (some m) (some tid) pick = .ok .onlyOne) ∧
    ((∃ tm ∈ ts, tm.teamID = tid) → 2 ≤ (teamMembers m tid).length →
      ∃ m2 nl, UpdateLeader (some m) (some tid) pick = .ok (.rotated m2 nl) ∧
        nl ∈ teamNonLeaders m tid ∧ nl ≠ lead ∧
        isLeaderOf m2 tid nl = true ∧ isLeaderOf m2 tid lead = false ∧
        (∀ tid2 j, memberOf m2 tid2 j = memberOf m tid2 j) ∧
        m2.players.length = m.players.length ∧
        ls.get? (ls.indexOf (toString lead)) = some (toString lead) ∧
        m2.setupData = some { sd with leadersID := some (ls.set (ls.indexOf (toString lead)) (toString nl)) }) := by
  have hlen1 : (teamLeaders m tid).length = 1 := by rw [hlead]; rfl
  have hpart := leaders_nonLeaders_length m tid
  rw [hlen1] at hpart
  have hLmem : isLeaderOf m tid lead = true := by
    have hin : lead ∈ teamLeaders m tid := by
      rw [hlead]
      exact List.mem_singleton_self lead
    exact (List.mem_filter.mp hin).2
  refine ⟨?_, ?_, ?_⟩
  · intro hnone
    have hany : ts.any (fun tm => tm.teamID == tid) = false := by
      rw [List.any_eq_false]
      intro tm htm
      simp [hnone tm htm]
    have hgate : teamGate m tid = .error (.notFound "Team not found") := by
      unfold teamGate
      rw [hsd]
      dsimp only
      rw [hts]
      dsimp only
      rw [hany, if_neg Bool.false_ne_true]
    unfold UpdateLeader
    dsimp only
    rw [hgate]
    rfl
  · intro hex hsize
    have hany : ts.any (fun tm => tm.teamID == tid) = true := by
      obtain ⟨tm, htm, hteq⟩ := hex
      exact List.any_eq_true.mpr ⟨tm, htm, by simp [hteq]⟩
    have hgate : teamGate m tid = .ok () := by
      unfold teamGate
      rw [hsd]
      dsimp only
      rw [hts]
      dsimp only
      rw [hany, if_pos rfl]
    have hscan := scanTeam_spec m tid hdata
    rw [hlead,
      show ([lead] : List Nat).getLast? = some lead from rfl] at hscan
    have hnl : teamNonLeaders m tid = [] := by
      refine List.length_eq_zero.mp ?_
      omega
    rw [hnl] at hscan
    unfold UpdateLeader
    dsimp only
    rw [hgate]
    dsimp only [Bind.bind, Except.bind]
    rw [hscan]
  · intro hex hsize
    have hany : ts.any (fun tm => tm.teamID == tid) = true := by
      obtain ⟨tm, htm, hteq⟩ := hex
      exact List.any_eq_true.mpr ⟨tm, htm, by simp [hteq]⟩
    have hgate : teamGate m tid = .ok () := by
      unfold teamGate
      rw [hsd]
      dsimp only
      rw [hts]
      dsimp only
      rw [hany, if_pos rfl]
    have hscan := scanTeam_spec m tid hdata
    rw [hlead,
      show ([lead] : List Nat).getLast? = some lead from rfl] at hscan
    have hnlen : 1 ≤ (teamNonLeaders m tid).length := by omega
    obtain ⟨o, rest, hor⟩ : ∃ o rest, teamNonLeaders m tid = o :: rest := by
      cases hh : teamNonLeaders m tid with
      | nil =>
        rw [hh] at hnlen
        cases hnlen
      | cons o rest => exact ⟨o, rest, rfl⟩
    rw [hor] at hscan
    obtain ⟨nlv, hnlv⟩ :
        ∃ nlv, nlv = (o :: rest).getD (pick % (o :: rest).length) 0 :=
      ⟨_, rfl⟩
    have hlt : pick % (o :: rest).length < (o :: rest).length :=
      Nat.mod_lt _ (by simp)
    have hnlmem : nlv ∈ teamNonLeaders m tid := by
      rw [hor, hnlv]
      exact getD_mem_of_lt hlt 0
    obtain ⟨-, hpred⟩ := List.mem_filter.mp hnlmem
    obtain ⟨hmemN, hnotN⟩ := Bool.and_eq_true .. |>.mp hpred
    have hleadN : isLeaderOf m tid nlv = false := by
      cases hx : isLeaderOf m tid nlv with
      | false => rfl
      | true => rw [hx] at hnotN; cases hnotN
    have hne : nlv ≠ lead := by
      intro he
      rw [he, hLmem] at hleadN
      cases hleadN
    obtain ⟨dn, tdn, hdn, htdn, htidn⟩ := memberOf_dest hmemN
    obtain ⟨dl, tdl, hdl, htdl, htidl, hledl⟩ := isLeaderOf_dest hLmem
    have hs1 : setLeaderFlag m nlv true =
        .ok (modifyData m nlv (fun dd =>
          { dd with teamData := some { tdn with leader := true },
                    leader := some true })) := by
      unfold setLeaderFlag
      rw [hdn]
      dsimp only
      rw [htdn]
    have hgl1 : getData (modifyData m nlv (fun dd =>
        { dd with teamData := some { tdn with leader := true },
                  leader := some true })) lead = some dl := by
      rw [getData_modifyData_ne m _ hne]
      exact hdl
    have hs2 : setLeaderFlag (modifyData m nlv (fun dd =>
        { dd with teamData := some { tdn with leader := true },
                  leader := some true })) lead false =
        .ok (modifyData (modifyData m nlv (fun dd =>
          { dd with teamData := some { tdn with leader := true },
                    leader := some true })) lead (fun dd =>
          { dd with teamData := some { tdl with leader := false },
                    leader := some false })) := by
      unfold setLeaderFlag
      rw [hgl1]
      dsimp only
      rw [htdl]
    have hsd2 : (modifyData (modifyData m nlv (fun dd =>
        { dd with teamData := some { tdn with leader := true },
                  leader := some true })) lead (fun dd =>
          { dd with teamData := some { tdl with leader := false },
                    leader := some false })).setupData = some sd := by
      rw [(modifyData_shape _ _ _).2.1, (modifyData_shape _ _ _).2.1, hsd]
    refine ⟨{ modifyData (modifyData m nlv (fun dd => { dd with teamData := some { tdn with leader := true }, leader := some true })) lead (fun dd => { dd with teamData := some { tdl with leader := false }, leader := some false }) with setupData := some { sd with leadersID := some (ls.set (ls.indexOf (toString lead)) (toString nlv)) } }, nlv, ?_, hnlmem, hne, ?_, ?_, ?_, ?_, get?_indexOf hmem, rfl⟩
    · unfold UpdateLeader
      dsimp only
      rw [hgate]
      dsimp only [Bind.bind, Except.bind]
      rw [hscan]
      dsimp only [Bind.bind, Except.bind]
      rw [← hnlv, hs1]
      dsimp only [Bind.bind, Except.bind]
      rw [hs2]
      dsimp only [Bind.bind, Except.bind]
      rw [hsd2]
      dsimp only
      rw [hls]
      dsimp only
      rw [if_pos hmem]
    · have hg2 : getData (modifyData (modifyData m nlv (fun dd => { dd with teamData := some { tdn with leader := true }, leader := some true })) lead (fun dd => { dd with teamData := some { tdl with leader := false }, leader := some false })) nlv = some { dn with teamData := some { tdn with leader := true }, leader := some true } := by
        rw [getData_modifyData_ne _ _ (fun he => hne he.symm),
          getData_modifyData_self _ hdn]
      exact (isLeaderOf_eval hg2 rfl tid).trans (by simp [htidn])
    · have hg3 : getData (modifyData (modifyData m nlv (fun dd => { dd with teamData := some { tdn with leader := true }, leader := some true })) lead (fun dd => { dd with teamData := some { tdl with leader := false }, leader := some false })) lead = some { dl with teamData := some { tdl with leader := false }, leader := some false } := by
        rw [getData_modifyData_self _ hgl1]
      exact (isLeaderOf_eval hg3 rfl tid).trans (by simp)
    · intro tid2 j
      exact (memberOf_modify_leader _ lead { tdl with leader := false } false hgl1 htdl rfl tid2 j).trans
        (memberOf_modify_leader m nlv { tdn with leader := true } true hdn htdn rfl tid2 j)
    · exact Eq.trans ((modifyData_shape _ _ _).2.2) ((modifyData_shape _ _ _).2.2)

/-- Claim C7 witness: rotating the leader of team `"0"` of `room4Teamed`
(members 0 and 1, leader 0) with pick 5 elects the only non-leader member
1, demotes 0, keeps membership, and rewrites the aggregate leader list. -/
theorem claim7_witness :
    ∃ m2 nl, UpdateLeader (some room4Teamed) (some "0") 5 =
        .ok (.rotated m2 nl) ∧
      nl ∈ teamNonLeaders room4Teamed "0" ∧ nl ≠ 0 ∧
      isLeaderOf m2 "0" nl = true ∧ isLeaderOf m2 "0" 0 = false ∧
      (∀ tid2 j, memberOf m2 tid2 j = memberOf room4Teamed tid2 j) ∧
      m2.players.length = room4Teamed.players.length ∧
      (["0", "2"] : List String).get?
        ((["0", "2"] : List String).indexOf (toString 0)) = some (toString 0) ∧
      m2.setupData = some { sdT with leadersID := some ((["0", "2"] : List String).set ((["0", "2"] : List String).indexOf (toString 0)) (toString nl)) } :=
  (claim7_rotateLeader room4Teamed "0" 5 sdT tsT ["0", "2"] 0 (by decide)
    (by decide) (by decide) (by decide) (by decide) (by decide)).2.2
    (by decide) (by decide)

end BoardgameApi
